/-
Verification of the beartype union type-checking code factory
(beartype._check.code.pep.codepep484604), the beartype configuration
cache (beartype._conf.confcls) and the IsAttr validator factory
(beartype.vale._valeisobj), via a shallow embedding in Lean 4.

Python hints are modelled as a small inductive type; machine-level
concerns (object identity, the object pool, the memoization cache) are
made explicit as state threaded through the embedded functions.
-/
import Mathlib

namespace Beartype

/-! ## Hint data model

A type hint is either a PEP-noncompliant isinstanceable class (`nonpep`),
a PEP-compliant non-union hint such as a parametrized container (`pep`),
or a PEP 484/604 union of child hints.  The ordered tuple of child hints
subscripting a union is represented as a cons chain built into the
inductive (`unionNil` / `unionCons`), which keeps equality decidable;
`Hint.mkUnion` builds a union from a child list and `get_hint_pep_args`
recovers the list.  Concrete classes and deep hints are identified by
natural-number codes; their meaning is supplied by interpretation
functions `inst` (shallow isinstance test) and `pepOk` (deep check) when
semantics are needed. -/

inductive Hint : Type where
  | nonpep (t : Nat)
  | pep (t : Nat)
  | unionNil
  | unionCons (arg : Hint) (rest : Hint)
deriving DecidableEq, Repr

/-- A union hint subscripted by this tuple of child hints. -/
def Hint.mkUnion : List Hint → Hint
  | [] => .unionNil
  | a :: as => .unionCons a (Hint.mkUnion as)

/-- `get_hint_pep_args`: tuple of child hints subscripting this hint if
any, else the empty tuple. -/
def get_hint_pep_args : Hint → List Hint
  | .unionCons a rest => a :: get_hint_pep_args rest
  | _ => []

/-- `is_hint_pep`: true for PEP-compliant hints.  Unions are
PEP-compliant; bare isinstanceable classes are not. -/
def is_hint_pep : Hint → Bool
  | .nonpep _ => false
  | _ => true

/-- `get_hint_pep_sign_or_none(hint) in HINT_SIGNS_UNION`: true iff this
hint is a union. -/
def is_sign_union : Hint → Bool
  | .unionNil => true
  | .unionCons _ _ => true
  | _ => false

/-- Metadata encapsulating a sanified hint (`HintSanifiedData` in
`beartype._check.metadata.metasane`): the sane hint plus the type
variable lookup table it carries (opaque here). -/
structure HintSanifiedData : Type where
  hint : Hint
  table : Nat
deriving DecidableEq, Repr

/-- `HintOrHintSanifiedData`: either a bare hint or a hint with
sanification metadata. -/
abbrev HintOrSane : Type := Sum Hint HintSanifiedData

/-- `get_hint_or_sane_hint`: the hint encapsulated by this metadata. -/
def get_hint_or_sane_hint : HintOrSane → Hint
  | .inl h => h
  | .inr d => d.hint

/-- `HintSanifiedData.permute(hint=...)`: same metadata, new hint. -/
def HintSanifiedData.permute (d : HintSanifiedData) (h : Hint) :
    HintSanifiedData :=
  { d with hint := h }

/-! ## Hint semantics

`Hint.validate` answers whether a value satisfies a hint, given the
isinstance relation `inst` and the deep-check relation `pepOk` for
non-union PEP hints.  A union accepts a value iff some child does. -/

def Hint.validate (inst pepOk : Nat → Nat → Bool) : Hint → Nat → Bool
  | .nonpep t, v => inst v t
  | .pep t, v => pepOk v t
  | .unionNil, _ => false
  | .unionCons a rest, v =>
      Hint.validate inst pepOk a v ||
        (is_sign_union rest && Hint.validate inst pepOk rest v)

/-! ## Object pool

`acquire_object_typed` / `release_object_typed` borrow and return
scratch containers.  Only the net number of borrowed objects matters to
the claims, so the pool state is that count. -/

structure Pool : Type where
  borrowed : Nat
deriving DecidableEq, Repr

def Pool.acquire (p : Pool) : Pool := { borrowed := p.borrowed + 1 }

def Pool.release (p : Pool) : Pool := { borrowed := p.borrowed - 1 }

def pool0 : Pool := { borrowed := 0 }

/-! ## The flattening getter

`_get_hint_pep484604_union_args_flattened` sanifies each child of the
union; a sanified child that is itself a union is expanded one level:
all of its child hints are appended directly to the parent union.
`sanify_hint_child` lives outside the embedded sources and may raise,
so it is a parameter of type `Sanifier`. -/

abbrev Sanifier : Type := Hint → Except String HintOrSane

inductive CheckError : Type where
  | assertChildless (hint : Hint)
  | sanifyError (msg : String)
deriving DecidableEq, Repr

/-- Body of one iteration of the flattening loop: sanify the child; if
the sanified child is a union, append all of its child hints (permuting
the metadata onto each when present), else append the sanified child
itself. -/
def flatten_union_child (sanify : Sanifier) (hint_child : Hint) :
    Except String (List HintOrSane) :=
  match sanify hint_child with
  | .error e => .error e
  | .ok hint_or_sane_child =>
      if is_sign_union (get_hint_or_sane_hint hint_or_sane_child) then
        match hint_or_sane_child with
        | .inr sane =>
            .ok ((get_hint_pep_args
                (get_hint_or_sane_hint hint_or_sane_child)).map
              (fun c => .inr (sane.permute c)))
        | .inl _ =>
            .ok ((get_hint_pep_args
                (get_hint_or_sane_hint hint_or_sane_child)).map .inl)
      else
        .ok [hint_or_sane_child]

/-- The while loop over the child hints, in discovery order.  An
exception raised while sanifying a child propagates immediately. -/
def flattenLoop (sanify : Sanifier) :
    List Hint → Except String (List HintOrSane)
  | [] => .ok []
  | c :: rest =>
      match flatten_union_child sanify c with
      | .error e => .error e
      | .ok xs =>
          match flattenLoop sanify rest with
          | .error e => .error e
          | .ok ys => .ok (xs ++ ys)

/-- One-level expansion of a single sanified child: the child hints of
a sanified child union, or the sanified child itself when it is not a
union.  Children whose sanification fails contribute nothing (the loop
has already propagated the exception). -/
def sanifiedExpansion (sanify : Sanifier) (c : Hint) : List Hint :=
  match sanify c with
  | .error _ => []
  | .ok hos =>
      if is_sign_union (get_hint_or_sane_hint hos) then
        get_hint_pep_args (get_hint_or_sane_hint hos)
      else
        [get_hint_or_sane_hint hos]

/-- Core of `_get_hint_pep484604_union_args_flattened`: assert the union
is subscripted, then flatten its children one level. -/
def get_union_args_flattened_core (sanify : Sanifier) (hint : Hint) :
    Except CheckError (List HintOrSane) :=
  let hint_childs := get_hint_pep_args hint
  if hint_childs.isEmpty then
    .error (.assertChildless hint)
  else
    match flattenLoop sanify hint_childs with
    | .error e => .error (.sanifyError e)
    | .ok childs => .ok childs

/-- `_get_hint_pep484604_union_args_flattened` with the object pool made
explicit.  The scratch list is acquired after the childlessness assert
and released only on the non-exceptional path: an exception raised by
`sanify_hint_child` inside the loop propagates past the release call. -/
def get_hint_pep484604_union_args_flattened (sanify : Sanifier)
    (hint : Hint) (pool : Pool) :
    Except CheckError (List HintOrSane) × Pool :=
  let hint_childs := get_hint_pep_args hint
  if hint_childs.isEmpty then
    (.error (.assertChildless hint), pool)
  else
    let pool1 := pool.acquire
    match flattenLoop sanify hint_childs with
    | .error e => (.error (.sanifyError e), pool1)
    | .ok childs => (.ok childs, pool1.release)

/-! ## The union code factory

`make_hint_pep484604_check_expr` filters the flattened children into a
set of PEP-noncompliant child classes and a set of PEP-compliant child
hints, then emits code: first a single multi-type isinstance test over
the whole PEP-noncompliant set, then one nested sub-expression per
PEP-compliant child.  Python sets are modelled as duplicate-free lists
in insertion order (the claims proved below do not depend on the
iteration order of a Python set).  The code snippet templates
(`beartype._data.code.pep.datacodepep484604`) are modelled abstractly:
a code buffer is the list of sub-expressions appended after the union
prefix, and the final munge joins them with logical `or`. -/

/-- Which expression a sub-expression uses to reach the current pith:
the assignment expression materializing it into a new local variable
(`pith_curr_assign_expr`), the name of that local variable
(`pith_curr_var_name`), or the raw pith expression
(`pith_curr_expr`). -/
inductive PithRef : Type where
  | assignExpr
  | varName
  | plainExpr
deriving DecidableEq, Repr

/-- One sub-expression of the emitted union check: either the single
multi-type membership test over the PEP-noncompliant bucket
(`CODE_PEP484604_UNION_CHILD_NONPEP`) or one nested placeholder per
PEP-compliant child (`CODE_PEP484604_UNION_CHILD_PEP`). -/
inductive UnionSub : Type where
  | nonpepTest (pith : PithRef) (types : List Nat)
  | pepChild (pith : PithRef) (child : HintOrSane)
deriving DecidableEq, Repr

/-- Python `set.add`: insert if absent.  Insertion order is taken as
the canonical iteration order of the modelled set. -/
def setAdd {α : Type} [DecidableEq α] (s : List α) (x : α) : List α :=
  if x ∈ s then s else s ++ [x]

/-- The filtering loop of `make_hint_pep484604_check_expr`: each child
hint is added to the set of PEP-compliant children (keeping its
metadata) when `is_hint_pep` holds, else its class code is added to the
set of PEP-noncompliant child classes. -/
def filter_union_childs (childs : List HintOrSane) :
    List Nat × List HintOrSane :=
  childs.foldl
    (fun acc hint_or_sane_child =>
      let hint_child := get_hint_or_sane_hint hint_or_sane_child
      match hint_child with
      | .nonpep t => (setAdd acc.1 t, acc.2)
      | _ => (acc.1, setAdd acc.2 hint_or_sane_child))
    ([], [])

/-- The PEP-noncompliant bucket (`hint_childs_nonpep`). -/
def nonpep_bucket (childs : List HintOrSane) : List Nat :=
  (filter_union_childs childs).1

/-- The PEP-compliant bucket (`hint_or_sane_childs_pep`). -/
def pep_bucket (childs : List HintOrSane) : List HintOrSane :=
  (filter_union_childs childs).2

/-- Code emission of `make_hint_pep484604_check_expr` given the
flattened children: the multi-type membership test over the
PEP-noncompliant bucket is emitted first (when that bucket is
non-empty), then one nested sub-expression per PEP-compliant child.
The pith reference of each sub-expression follows the source
conditionals: the membership test uses the assignment expression when
PEP-compliant children follow it and the raw pith expression otherwise;
a PEP-compliant child uses the local variable name when the
PEP-noncompliant bucket is non-empty or it is not the first
PEP-compliant child, else the assignment expression. -/
def union_code_of_childs (childs : List HintOrSane) : List UnionSub :=
  let hint_childs_nonpep := nonpep_bucket childs
  let hint_or_sane_childs_pep := pep_bucket childs
  let nonpepCode : List UnionSub :=
    if hint_childs_nonpep.isEmpty then
      []
    else
      [.nonpepTest
        (if hint_or_sane_childs_pep.isEmpty then .plainExpr
         else .assignExpr)
        hint_childs_nonpep]
  let pepCode : List UnionSub :=
    hint_or_sane_childs_pep.enum.map
      (fun ip =>
        .pepChild
          (if !hint_childs_nonpep.isEmpty || ip.1 != 0 then .varName
           else .assignExpr)
          ip.2)
  nonpepCode ++ pepCode

/-- `make_hint_pep484604_check_expr`: flatten the union (the getter is
invoked before any set is acquired), acquire the two scratch sets,
filter and emit, release the sets, then strip the trailing `or` and
append the suffix only when the buffer differs from its initial prefix
value; a buffer still at the prefix means the union generated no
type-checking code (`none`). -/
def make_hint_pep484604_check_expr (sanify : Sanifier) (hint : Hint)
    (pool : Pool) :
    Except CheckError (Option (List UnionSub)) × Pool :=
  match get_hint_pep484604_union_args_flattened sanify hint pool with
  | (.error e, pool1) => (.error e, pool1)
  | (.ok hint_or_sane_childs, pool1) =>
      let pool2 := pool1.acquire.acquire
      let func_curr_code := union_code_of_childs hint_or_sane_childs
      let pool3 := pool2.release.release
      (.ok (if func_curr_code.isEmpty then none else some func_curr_code),
        pool3)

/-! ## Semantics of the emitted code -/

/-- Evaluation of one sub-expression at a value: the membership test is
`isinstance(pith, (T1, ..., Tn))`; a nested placeholder evaluates the
deep check of its child hint. -/
def evalUnionSub (inst pepOk : Nat → Nat → Bool) (v : Nat) :
    UnionSub → Bool
  | .nonpepTest _ types => types.any (fun t => inst v t)
  | .pepChild _ child =>
      Hint.validate inst pepOk (get_hint_or_sane_hint child) v

/-- Modelled from the spec: the snippet templates
`CODE_PEP484604_UNION_CHILD_*` (module
`beartype._data.code.pep.datacodepep484604`, absent from the embedded
sources) join all emitted sub-expressions with logical `or`, so the
emitted union check succeeds iff some sub-expression succeeds. -/
def evalUnionCode (inst pepOk : Nat → Nat → Bool) (v : Nat)
    (subs : List UnionSub) : Bool :=
  subs.any (evalUnionSub inst pepOk v)

/-- A compiled check of `none` means no type-checking code was emitted:
the wrapper accepts every value. -/
def evalUnionCheck (inst pepOk : Nat → Nat → Bool) (v : Nat) :
    Option (List UnionSub) → Bool
  | none => true
  | some subs => evalUnionCode inst pepOk v subs

/-- Modelled from the spec: the upstream ignorability pre-filter (the
`is_hint_ignorable` tester, absent from the embedded sources) — a union
containing one or more ignorable child hints is deeply ignorable and is
ignored before the union code factory is ever invoked, so it compiles
to no code. -/
def compile_union (ignorable : Hint → Bool) (sanify : Sanifier)
    (hint : Hint) (pool : Pool) :
    Except CheckError (Option (List UnionSub)) × Pool :=
  if (get_hint_pep_args hint).any ignorable then
    (.ok none, pool)
  else
    make_hint_pep484604_check_expr sanify hint pool

/-! ## The memoization wrapper on the flattening getter

In the embedded sources `_get_hint_pep484604_union_args_flattened` is
decorated by `@callable_cached` and receives the whole `HintsMeta`
object — the mutable metadata stack of the breadth-first search — as
its only parameter, even though its own docstring and its caller's
comments state that passing that object in entirety inhibits the
intended per-(hint, configuration) memoization. -/

/-- The `HintsMeta` argument as seen by the memoization wrapper: the
object identity of the mutable stack object together with the current
hint (`hints_meta.hint_curr_meta.hint`) and configuration
(`hints_meta.conf`) it carries at call time. -/
structure HintsMetaObj : Type where
  objId : Nat
  hint : Hint
  conf : Nat
deriving DecidableEq, Repr

/-- State of the memoized getter: its cache plus the number of debug
lines written to stdout by the unconditional `print` statement opening
the getter body. -/
structure FlattenCacheState : Type where
  cache : List (Nat × List HintOrSane)
  printedCount : Nat
deriving DecidableEq, Repr

def flattenCacheState0 : FlattenCacheState :=
  { cache := [], printedCount := 0 }

def flattenCacheLookup : List (Nat × List HintOrSane) → Nat →
    Option (List HintOrSane)
  | [], _ => none
  | (k, r) :: rest, i =>
      if k = i then some r else flattenCacheLookup rest i

/-- Modelled from the spec: the `callable_cached` decorator
(`beartype._util.cache.utilcachecall`, absent from the embedded
sources) memoizes a callable on its arguments — on a hit the cached
result is returned without invoking the body.  The `HintsMeta` class
(also absent) defines no value equality, so the cache key for this
getter is the object identity `objId` of the mutable metadata stack
object passed in entirety.  The body additionally executes an
unconditional debug `print` on every computation, recorded here as an
observable stdout effect. -/
def cached_union_args_flattened (sanify : Sanifier) (m : HintsMetaObj)
    (st : FlattenCacheState) :
    Except CheckError (List HintOrSane) × FlattenCacheState :=
  match flattenCacheLookup st.cache m.objId with
  | some r => (.ok r, st)
  | none =>
      let st1 : FlattenCacheState :=
        { st with printedCount := st.printedCount + 1 }
      match get_union_args_flattened_core sanify m.hint with
      | .error e => (.error e, st1)
      | .ok r =>
          (.ok r, { st1 with cache := st1.cache ++ [(m.objId, r)] })

/-! ## The configuration cache (`beartype._conf.confcls`)

`BeartypeConf.__new__` validates its keyword parameters, deduplicates
configurations through the `beartype_conf_args_to_conf` dictionary
keyed on the parameter tuple, and constructs a new instance only on a
cache miss — the whole body running under `beartype_conf_lock` (the
embedding is sequential, so the lock is implicit).  Parameter values
are modelled by a small universe `PyVal` of Python values. -/

inductive StrategyV : Type where
  | O0
  | O1
  | Ologn
  | On
deriving DecidableEq, Repr

inductive PyVal : Type where
  | vbool (b : Bool)
  | vnone
  | vint (n : Int)
  | vstr (s : String)
  | vstrategy (s : StrategyV)
  | vwarncat (w : Nat)
  | vwarnDefault
deriving DecidableEq, Repr

/-- The `conf_args` tuple: all parameters of `__new__`, in the order of
the tuple built at the top of its body. -/
structure ConfArgs : Type where
  claw_is_pep526 : PyVal
  is_color : PyVal
  is_debug : PyVal
  is_pep484_tower : PyVal
  strategy : PyVal
  warning_cls_on_decorator_exception : PyVal
deriving DecidableEq, Repr

/-- The slotted instance variables assigned to a freshly constructed
configuration (`_conf_kwargs` is determined by the remaining fields and
is omitted). -/
structure ConfFields : Type where
  claw_is_pep526 : Bool
  is_color : PyVal
  is_debug : Bool
  is_pep484_tower : Bool
  is_warning_cls_on_decorator_exception_set : Bool
  warning_cls_on_decorator_exception : PyVal
  strategy : StrategyV
  conf_args : ConfArgs
deriving DecidableEq, Repr

inductive ConfError : Type where
  | confException (param : String)
  | shellVarException (value : String)
deriving DecidableEq, Repr

/-- `isinstance(x, NoneTypeOr[bool])`: a tri-state boolean. -/
def is_tri_bool : PyVal → Bool
  | .vbool _ => true
  | .vnone => true
  | _ => false

/-- `x is None or is_type_subclass(x, Warning)`.  The private default
category is itself a `Warning` subclass. -/
def is_none_or_warning_category : PyVal → Bool
  | .vnone => true
  | .vwarncat _ => true
  | .vwarnDefault => true
  | _ => false

/-- Modelled from the spec: `SHELL_VAR_CONF_IS_COLOR_VALUE_TO_OBJ`
(`beartype._data.os.dataosshell`, absent from the embedded sources) —
per the `__new__` docstring, the recognized string values of the
`${BEARTYPE_IS_COLOR}` shell variable are exactly `True`, `False` and
`None`. -/
def shell_var_is_color_to_obj : String → Option PyVal
  | "True" => some (.vbool true)
  | "False" => some (.vbool false)
  | "None" => some .vnone
  | _ => none

/-- The validation chain of the cache-miss body of `__new__` (in source
order), followed by the defaulting of the private warning category and
the `${BEARTYPE_IS_COLOR}` override.  It yields the typed values
`(claw_is_pep526, is_color, is_debug, is_pep484_tower,
is_warning_set, warning_cls, strategy)` assigned to the instance. -/
def conf_validate (env : Option String) (a : ConfArgs) :
    Except ConfError
      (Bool × PyVal × Bool × Bool × Bool × PyVal × StrategyV) :=
  match a.claw_is_pep526 with
  | .vbool claw =>
    if is_tri_bool a.is_color then
      match a.is_debug with
      | .vbool dbg =>
        match a.is_pep484_tower with
        | .vbool tower =>
          if is_none_or_warning_category
              a.warning_cls_on_decorator_exception then
            match a.strategy with
            | .vstrategy strat =>
                let warnDefaulted :=
                  a.warning_cls_on_decorator_exception = PyVal.vwarnDefault
                let is_warning_set := !warnDefaulted
                let warning_cls :=
                  if warnDefaulted then PyVal.vnone
                  else a.warning_cls_on_decorator_exception
                match env with
                | none =>
                    .ok (claw, a.is_color, dbg, tower, is_warning_set,
                      warning_cls, strat)
                | some s =>
                    match shell_var_is_color_to_obj s with
                    | none => .error (.shellVarException s)
                    | some is_color_override =>
                        .ok (claw, is_color_override, dbg, tower,
                          is_warning_set, warning_cls, strat)
            | _ => .error (.confException "strategy")
          else
            .error (.confException "warning_cls_on_decorator_exception")
        | _ => .error (.confException "is_pep484_tower")
      | _ => .error (.confException "is_debug")
    else .error (.confException "is_color")
  | _ => .error (.confException "claw_is_pep526")

/-- The instance fields produced by the cache-miss body of `__new__`:
the validated typed values classified onto the instance, plus the
`_conf_args` tuple stored for subsequent reuse.  The result depends
only on the environment and the parameters, never on the cache. -/
def conf_fields_of (env : Option String) (a : ConfArgs) :
    Except ConfError ConfFields :=
  match conf_validate env a with
  | .error e => .error e
  | .ok (claw, color, dbg, tower, is_warning_set, warning_cls, strat) =>
      .ok { claw_is_pep526 := claw,
            is_color := color,
            is_debug := dbg,
            is_pep484_tower := tower,
            is_warning_cls_on_decorator_exception_set := is_warning_set,
            warning_cls_on_decorator_exception := warning_cls,
            strategy := strat,
            conf_args := a }

/-- The shared mutable state guarded by `beartype_conf_lock`: the
`beartype_conf_args_to_conf` dictionary (as an association list keyed
on the parameter tuple), the constructed instances (object identity to
fields), and the allocator of fresh object identities. -/
structure ConfState : Type where
  cache : List (ConfArgs × Nat)
  objs : List (Nat × ConfFields)
  nextId : Nat
deriving DecidableEq, Repr

def confState0 : ConfState := { cache := [], objs := [], nextId := 0 }

def confCacheLookup : List (ConfArgs × Nat) → ConfArgs → Option Nat
  | [], _ => none
  | (k, i) :: rest, a =>
      if k = a then some i else confCacheLookup rest a

def confObjLookup : List (Nat × ConfFields) → Nat → Option ConfFields
  | [], _ => none
  | (k, f) :: rest, i =>
      if k = i then some f else confObjLookup rest i

/-- `BeartypeConf.__new__`: under the configuration lock, return the
previously instantiated configuration when one exists for this
parameter tuple; else validate, construct, cache and return a new
instance.  All raising paths precede the cache store, so the state is
returned unchanged on error. -/
def BeartypeConf_new (env : Option String) (a : ConfArgs)
    (st : ConfState) : Except ConfError Nat × ConfState :=
  match confCacheLookup st.cache a with
  | some cid => (.ok cid, st)
  | none =>
      match conf_fields_of env a with
      | .error e => (.error e, st)
      | .ok f =>
          (.ok st.nextId,
            { cache := st.cache ++ [(a, st.nextId)],
              objs := st.objs ++ [(st.nextId, f)],
              nextId := st.nextId + 1 })

/-- `BeartypeConf.__eq__` on the fields of two configurations: value
equality compares the `_conf_args` tuples. -/
def conf_eq (f1 f2 : ConfFields) : Bool :=
  f1.conf_args = f2.conf_args

/-! ## The `IsAttr` validator factory (`beartype.vale._valeisobj`) -/

/-- An already-built attribute validator (`_SubscriptedIs`) as consumed
by `IsAttr`: its `is_valid` tester over attribute values and its
`_is_valid_code_locals` mapping. -/
structure AttrValidator : Type where
  is_valid : Nat → Bool
  code_locals : List (String × Nat)

/-- One argument subscripting `IsAttr`: a string, a validator, or any
other object. -/
inductive ValeArg : Type where
  | str (s : String)
  | validator (v : AttrValidator)
  | other (n : Nat)

/-- The subscription as received by `__class_getitem__`: a single
non-tuple argument, or a tuple of arguments. -/
inductive ValeArgs : Type where
  | nonTuple (a : ValeArg)
  | tuple (items : List ValeArg)

/-- Errors escaping `__class_getitem__`: the documented
`BeartypeValeSubscriptionException`, or the `AttributeError` raised by
attribute access on an object lacking that attribute. -/
inductive ValeError : Type where
  | subscription (msg : String)
  | attributeError
deriving DecidableEq, Repr

/-- A Python object as seen by the generated validator: its attribute
dictionary. -/
structure Obj : Type where
  attrs : List (String × Nat)

def attrLookup : List (String × Nat) → String → Option Nat
  | [], _ => none
  | (k, v) :: rest, n => if k = n then some v else attrLookup rest n

/-- `getattr(pith, attr_name, SENTINEL)`: `none` models the sentinel
placeholder returned when the object defines no such attribute. -/
def getattr_or_sentinel (o : Obj) (name : String) : Option Nat :=
  attrLookup o.attrs name

/-- The `is_valid` closure created by `IsAttr.__class_getitem__`:
true only if the attribute lookup does not yield the sentinel and the
attribute validator accepts the attribute value. -/
def isattr_is_valid (attr_name : String)
    (attr_validator : AttrValidator) (pith : Obj) : Bool :=
  match getattr_or_sentinel pith attr_name with
  | some pith_attr => attr_validator.is_valid pith_attr
  | none => false

/-- `str.isidentifier` restricted to ASCII: a non-empty string whose
first character is a letter or underscore and whose remaining
characters are letters, digits or underscores. -/
def str_isidentifier (s : String) : Bool :=
  match s.data with
  | [] => false
  | c :: rest =>
      (c.isAlpha || c = '_') &&
        rest.all (fun d => d.isAlphanum || d = '_')

/-- The `_SubscriptedIs` object returned on success: the closure plus
the merged code locals (the sentinel local added by
`add_func_scope_attr`, merged with the child validator's locals by
`update_mapping`). -/
structure SubscriptedIs : Type where
  is_valid : Obj → Bool
  is_valid_code_locals : List (String × Nat)

/-- `IsAttr.__class_getitem__`: validate the subscription shape and the
attribute name (in source order), then build the validator.  The second
subscript argument is never checked to be a validator: for a
non-validator, the access `attr_validator._is_valid_code_locals`
performed by `update_mapping` raises `AttributeError` instead of
`BeartypeValeSubscriptionException`. -/
def isattr_class_getitem (args : ValeArgs) :
    Except ValeError SubscriptedIs :=
  match args with
  | .nonTuple _ =>
      .error (.subscription "one non-tuple argument")
  | .tuple [attr_name_arg, attr_validator_arg] =>
      match attr_name_arg with
      | .str attr_name =>
          if attr_name = "" then
            .error (.subscription "first argument empty")
          else if '.' ∉ attr_name.data then
            if !str_isidentifier attr_name then
              .error (.subscription "first argument not identifier")
            else
              match attr_validator_arg with
              | .validator attr_validator =>
                  .ok { is_valid := isattr_is_valid attr_name
                          attr_validator,
                        is_valid_code_locals :=
                          ("sentinel", 0) :: attr_validator.code_locals }
              | _ => .error .attributeError
          else
            .error (.subscription "first argument not unqualified")
      | _ => .error (.subscription "first argument not string")
  | .tuple [] =>
      .error (.subscription "empty tuple")
  | .tuple _ =>
      .error (.subscription "three or more arguments")

/-- Discriminator for the two error kinds escaping
`IsAttr.__class_getitem__`. -/
def ValeError.is_subscription : ValeError → Bool
  | .subscription _ => true
  | .attributeError => false

/-- The default parameters of `BeartypeConf.__new__`. -/
def confArgsW : ConfArgs :=
  { claw_is_pep526 := .vbool true,
    is_color := .vnone,
    is_debug := .vbool false,
    is_pep484_tower := .vbool false,
    strategy := .vstrategy .O1,
    warning_cls_on_decorator_exception := .vwarnDefault }

/-- The fields of the configuration constructed from the default
parameters with no `${BEARTYPE_IS_COLOR}` shell variable. -/
def confFieldsW : ConfFields :=
  { claw_is_pep526 := true,
    is_color := .vnone,
    is_debug := false,
    is_pep484_tower := false,
    is_warning_cls_on_decorator_exception_set := false,
    warning_cls_on_decorator_exception := .vnone,
    strategy := .O1,
    conf_args := confArgsW }

/-- The configuration cache state after constructing the default
configuration once from the initial state. -/
def confStateW : ConfState :=
  { cache := [(confArgsW, 0)], objs := [(0, confFieldsW)], nextId := 1 }

/-! ## Shared helpers for the theorems -/

/-- Identity sanifier: every child hint is already sane and carries no
metadata. -/
def sanify_id : Sanifier := fun h => .ok (.inl h)

/-- Concrete isinstance interpretation: a value is an instance of
exactly the class with its own code. -/
def inst_eq : Nat → Nat → Bool := fun v t => v == t

/-- Concrete deep-check interpretation rejecting everything. -/
def pep_never : Nat → Nat → Bool := fun _ _ => false

/-- The pith reference used by a sub-expression. -/
def UnionSub.pithRefOf : UnionSub → PithRef
  | .nonpepTest p _ => p
  | .pepChild p _ => p

theorem get_hint_pep_args_mkUnion (as : List Hint) :
    get_hint_pep_args (Hint.mkUnion as) = as := by
  induction as with
  | nil => rfl
  | cons a as ih => simp [Hint.mkUnion, get_hint_pep_args, ih]

theorem is_sign_union_mkUnion (as : List Hint) :
    is_sign_union (Hint.mkUnion as) = true := by
  cases as <;> rfl

theorem Hint.validate_mkUnion (inst pepOk : Nat → Nat → Bool)
    (as : List Hint) (v : Nat) :
    Hint.validate inst pepOk (Hint.mkUnion as) v =
      as.any (fun h => Hint.validate inst pepOk h v) := by
  induction as with
  | nil => rfl
  | cons a as ih =>
      simp [Hint.mkUnion, Hint.validate, is_sign_union_mkUnion, ih,
        List.any_cons]

/-- For a union hint, validation is the disjunction over its child
tuple; for a non-union hint the child tuple is empty. -/
theorem Hint.validate_of_union (inst pepOk : Nat → Nat → Bool)
    (h : Hint) (hu : is_sign_union h = true) (v : Nat) :
    Hint.validate inst pepOk h v =
      (get_hint_pep_args h).any (fun c => Hint.validate inst pepOk c v) := by
  induction h with
  | nonpep t => simp [is_sign_union] at hu
  | pep t => simp [is_sign_union] at hu
  | unionNil => simp [Hint.validate, get_hint_pep_args]
  | unionCons a rest iha ihr =>
      cases rest with
      | nonpep t =>
          simp [Hint.validate, get_hint_pep_args, is_sign_union,
            List.any_cons]
      | pep t =>
          simp [Hint.validate, get_hint_pep_args, is_sign_union,
            List.any_cons]
      | unionNil =>
          simp [Hint.validate, get_hint_pep_args, is_sign_union,
            List.any_cons]
      | unionCons b brest =>
          simp [Hint.validate, get_hint_pep_args, is_sign_union,
            List.any_cons] at ihr ⊢
          rw [ihr]

theorem map_pith_enumFrom_pos (n : Nat) (hn : n ≠ 0)
    (l : List HintOrSane) :
    (List.enumFrom n l).map
        (fun ip => UnionSub.pithRefOf
          (.pepChild (if ip.1 != 0 then PithRef.varName else .assignExpr)
            ip.2)) =
      List.replicate l.length PithRef.varName := by
  induction l generalizing n with
  | nil => rfl
  | cons a l ih =>
      have h1 : (n != 0) = true := by simpa [bne_iff_ne] using hn
      rw [List.enumFrom_cons, List.map_cons, List.length_cons,
        List.replicate_succ, ih (n + 1) (Nat.succ_ne_zero n)]
      simp [UnionSub.pithRefOf, h1]

theorem union_code_append_buckets (childs : List HintOrSane) :
    union_code_of_childs childs =
      (if (nonpep_bucket childs).isEmpty then []
       else
        [.nonpepTest
          (if (pep_bucket childs).isEmpty then .plainExpr else .assignExpr)
          (nonpep_bucket childs)]) ++
      (pep_bucket childs).enum.map
        (fun ip =>
          .pepChild
            (if !(nonpep_bucket childs).isEmpty || ip.1 != 0 then .varName
             else .assignExpr)
            ip.2) := rfl

/-- C8: A childless union never reaches the union compiler silently:
for a union hint with zero subscripted child hints both the flattening
getter and the union code factory fail with the childlessness
assertion instead of emitting code, leaving the pool untouched. -/
theorem childless_union_asserts (sanify : Sanifier) (pool : Pool) :
    get_hint_pep484604_union_args_flattened sanify (Hint.mkUnion [])
        pool =
      (.error (.assertChildless (Hint.mkUnion [])), pool) ∧
    make_hint_pep484604_check_expr sanify (Hint.mkUnion []) pool =
      (.error (.assertChildless (Hint.mkUnion [])), pool) :=
  ⟨rfl, rfl⟩

/-- C7: A union one of whose children is ignorable — in particular a
union all of whose (at least one) children are ignorable — is ignored
by the upstream pre-filter before the union code factory runs, so it
compiles to no type-checking code and the compiled check accepts every
input. -/
theorem ignorable_union_compiles_to_no_code (ignorable : Hint → Bool)
    (sanify : Sanifier) (hint : Hint) (pool : Pool)
    (hne : get_hint_pep_args hint ≠ [])
    (hall : ∀ c ∈ get_hint_pep_args hint, ignorable c = true) :
    compile_union ignorable sanify hint pool = (.ok none, pool) ∧
    ∀ inst pepOk v,
      evalUnionCheck inst pepOk v (none : Option (List UnionSub)) =
        true := by
  refine ⟨?_, fun inst pepOk v => rfl⟩
  have hany : (get_hint_pep_args hint).any ignorable = true := by
    rcases List.exists_mem_of_ne_nil _ hne with ⟨c, hc⟩
    exact List.any_eq_true.mpr ⟨c, hc, hall c hc⟩
  simp [compile_union, hany]

/-- C7 witness: a concrete union of two ignorable children compiles to
no code and accepts the concrete value 42. -/
theorem ignorable_union_compiles_to_no_code_witness :
    compile_union (fun _ => true) sanify_id
        (Hint.mkUnion [.nonpep 0, .nonpep 1]) pool0 = (.ok none, pool0) ∧
    evalUnionCheck inst_eq pep_never 42 (none : Option (List UnionSub)) =
      true := by
  have h := ignorable_union_compiles_to_no_code (fun _ => true) sanify_id
    (Hint.mkUnion [.nonpep 0, .nonpep 1]) pool0 (by decide)
    (by intro c _; rfl)
  exact ⟨h.1, h.2 inst_eq pep_never 42⟩

/-- C3 counterexample: when sanifying the second child raises, the
scratch list acquired by the flattening getter is not released back to
its pool — the invocation exits with one object still borrowed. -/
theorem union_pool_leak_on_sanify_error :
    make_hint_pep484604_check_expr
        (fun h => match h with
          | .nonpep 1 => .error "sanify failure"
          | _ => .ok (.inl h))
        (Hint.mkUnion [.nonpep 0, .nonpep 1]) pool0 =
      (.error (.sanifyError "sanify failure"), { borrowed := 1 }) ∧
    ({ borrowed := 1 } : Pool) ≠ pool0 :=
  ⟨rfl, by decide⟩

/-- C3 amended: on every non-exceptional exit path of the union code
factory, every pool object acquired during the invocation (the scratch
list of the getter and the two scratch sets of the factory) has been
released: the net borrow count is restored to its entry value.  On
exception paths the scratch containers are not returned (see the
counterexample). -/
theorem union_pool_released_on_success (sanify : Sanifier) (hint : Hint)
    (pool : Pool) (res : Option (List UnionSub))
    (h : (make_hint_pep484604_check_expr sanify hint pool).1 = .ok res) :
    (make_hint_pep484604_check_expr sanify hint pool).2 = pool := by
  unfold make_hint_pep484604_check_expr
    get_hint_pep484604_union_args_flattened at h ⊢
  by_cases hemp : (get_hint_pep_args hint).isEmpty
  · simp [hemp] at h
  · simp only [hemp] at h ⊢
    cases hflat : flattenLoop sanify (get_hint_pep_args hint) with
    | error e => simp [hflat, Bool.of_not_eq_true hemp] at h
    | ok childs =>
        simp only [hflat, Bool.of_not_eq_true hemp, if_neg]
        simp [Pool.acquire, Pool.release]

/-- C3 witness: a successful invocation on a concrete union restores
the pool. -/
theorem union_pool_released_on_success_witness :
    (make_hint_pep484604_check_expr sanify_id
        (Hint.mkUnion [.nonpep 0, .pep 1]) pool0).1 =
      .ok (some [.nonpepTest .assignExpr [0],
                 .pepChild .varName (.inl (.pep 1))]) ∧
    (make_hint_pep484604_check_expr sanify_id
        (Hint.mkUnion [.nonpep 0, .pep 1]) pool0).2 = pool0 :=
  ⟨rfl,
    union_pool_released_on_success sanify_id
      (Hint.mkUnion [.nonpep 0, .pep 1]) pool0
      (some [.nonpepTest .assignExpr [0],
             .pepChild .varName (.inl (.pep 1))]) rfl⟩

/-- C5: for a union with at least one PEP-noncompliant child, the
emitted code is the single multi-type membership test over the whole
shallow bucket first, followed by one nested sub-expression per
PEP-compliant child, and the sub-expressions are joined by logical or:
the whole check is unsatisfied iff every alternative is unsatisfied. -/
theorem union_code_shallow_bucket_first (childs : List HintOrSane)
    (hnp : nonpep_bucket childs ≠ []) :
    union_code_of_childs childs =
      .nonpepTest
          (if (pep_bucket childs).isEmpty then .plainExpr else .assignExpr)
          (nonpep_bucket childs) ::
        (pep_bucket childs).map (UnionSub.pepChild .varName) ∧
    ∀ inst pepOk v,
      (evalUnionCode inst pepOk v (union_code_of_childs childs) = false ↔
        ∀ sub ∈ union_code_of_childs childs,
          evalUnionSub inst pepOk v sub = false) := by
  constructor
  · have hne : (nonpep_bucket childs).isEmpty = false := by
      simpa [List.isEmpty_iff] using hnp
    rw [union_code_append_buckets]
    simp only [hne, Bool.false_eq_true, if_false, Bool.not_false,
      Bool.true_or, if_true, List.singleton_append]
    congr 1
    calc (pep_bucket childs).enum.map
          (fun ip => UnionSub.pepChild PithRef.varName ip.2)
        = ((pep_bucket childs).enum.map Prod.snd).map
            (UnionSub.pepChild PithRef.varName) := by
          rw [List.map_map]; rfl
      _ = (pep_bucket childs).map (UnionSub.pepChild PithRef.varName) := by
          rw [List.enum_map_snd]
  · intro inst pepOk v
    simp [evalUnionCode, List.any_eq_false]

/-- C5 witness: a concrete union with one shallow child and one
composite child. -/
theorem union_code_shallow_bucket_first_witness :
    nonpep_bucket [.inl (.nonpep 5), .inl (.pep 7)] ≠ [] ∧
    union_code_of_childs [.inl (.nonpep 5), .inl (.pep 7)] =
      .nonpepTest .assignExpr [5] ::
        [UnionSub.pepChild .varName (.inl (.pep 7))] ∧
    (evalUnionCode inst_eq pep_never 3
        (union_code_of_childs [.inl (.nonpep 5), .inl (.pep 7)]) =
        false ↔
      ∀ sub ∈ union_code_of_childs [.inl (.nonpep 5), .inl (.pep 7)],
        evalUnionSub inst_eq pep_never 3 sub = false) := by
  have h := union_code_shallow_bucket_first
    [.inl (.nonpep 5), .inl (.pep 7)] (by decide)
  exact ⟨by decide, by simpa using h.1, h.2 inst_eq pep_never 3⟩

/-- C6: the value under test is materialized into a local binding at
most once, by the first emitted sub-expression when any PEP-compliant
child is present (the membership test when the shallow bucket is
non-empty, else the first PEP-compliant child); every later
sub-expression references the binding by name, and a union with only a
shallow bucket introduces no binding at all. -/
theorem union_code_pith_materialized_once (childs : List HintOrSane) :
    (union_code_of_childs childs).map UnionSub.pithRefOf =
      (if (pep_bucket childs).isEmpty then
        (if (nonpep_bucket childs).isEmpty then []
         else [PithRef.plainExpr])
       else
        PithRef.assignExpr ::
          List.replicate ((union_code_of_childs childs).length - 1)
            PithRef.varName) := by
  rw [union_code_append_buckets]
  cases hpep : pep_bucket childs with
  | nil =>
      cases hnp : nonpep_bucket childs with
      | nil => simp [UnionSub.pithRefOf]
      | cons b m => simp [UnionSub.pithRefOf]
  | cons a l =>
      cases hnp : nonpep_bucket childs with
      | nil =>
          have htail := map_pith_enumFrom_pos 1 one_ne_zero l
          simp only [List.isEmpty_nil, List.isEmpty_cons, Bool.not_true,
            Bool.false_or, List.nil_append, List.enum, List.enumFrom_cons,
            List.map_cons, List.map_map, if_true]
          simp only [UnionSub.pithRefOf, List.enumFrom_length,
            Function.comp_def]
          simpa [UnionSub.pithRefOf] using htail
      | cons b m =>
          simp only [List.isEmpty_cons, Bool.false_eq_true, if_false,
            Bool.not_false, Bool.true_or, if_true, List.singleton_append,
            List.map_cons, List.length_cons, List.map_map,
            List.length_map, List.enumFrom_length, List.enum_length,
            Nat.add_sub_cancel]
          congr 1
          calc List.map
                (UnionSub.pithRefOf ∘
                  fun ip => UnionSub.pepChild PithRef.varName ip.2)
                (List.enumFrom 0 (a :: l))
              = List.map (Function.const (Nat × HintOrSane) PithRef.varName)
                  (List.enumFrom 0 (a :: l)) := rfl
            _ = List.replicate (List.enumFrom 0 (a :: l)).length
                  PithRef.varName := List.map_const _ _
            _ = List.replicate (a :: l).length PithRef.varName := by
                rw [List.enumFrom_length]

theorem flatten_union_child_map_hint (sanify : Sanifier) (c : Hint)
    (xs : List HintOrSane)
    (h : flatten_union_child sanify c = .ok xs) :
    xs.map get_hint_or_sane_hint = sanifiedExpansion sanify c := by
  cases hs : sanify c with
  | error e => simp [flatten_union_child, hs] at h
  | ok hos =>
      by_cases hu : is_sign_union (get_hint_or_sane_hint hos) = true
      · cases hos with
        | inl hh =>
            simp only [flatten_union_child, hs, hu, if_true] at h
            cases h
            simp only [get_hint_or_sane_hint] at hu
            simp [sanifiedExpansion, hs, hu, List.map_map,
              get_hint_or_sane_hint, Function.comp_def]
        | inr sane =>
            simp only [flatten_union_child, hs, hu, if_true] at h
            cases h
            simp only [get_hint_or_sane_hint] at hu
            simp [sanifiedExpansion, hs, hu, List.map_map,
              get_hint_or_sane_hint, HintSanifiedData.permute,
              Function.comp_def]
      · simp only [flatten_union_child, hs, hu, if_false,
          Bool.false_eq_true] at h
        cases h
        simp [sanifiedExpansion, hs, hu]

theorem flattenLoop_map_hint (sanify : Sanifier) (cs : List Hint)
    (out : List HintOrSane) (h : flattenLoop sanify cs = .ok out) :
    out.map get_hint_or_sane_hint =
      cs.flatMap (sanifiedExpansion sanify) := by
  induction cs generalizing out with
  | nil => cases h; rfl
  | cons c rest ih =>
      unfold flattenLoop at h
      cases hc : flatten_union_child sanify c with
      | error e => rw [hc] at h; cases h
      | ok xs =>
          rw [hc] at h
          cases hr : flattenLoop sanify rest with
          | error e => rw [hr] at h; cases h
          | ok ys =>
              rw [hr] at h
              cases h
              rw [List.map_append, List.flatMap_cons, ih ys hr,
                flatten_union_child_map_hint sanify c xs hc]

theorem sanifiedExpansion_no_union (sanify : Sanifier) (c g : Hint)
    (hdeep : ∀ hos, sanify c = .ok hos →
      ∀ g2 ∈ get_hint_pep_args (get_hint_or_sane_hint hos),
        is_sign_union g2 = false)
    (hg : g ∈ sanifiedExpansion sanify c) :
    is_sign_union g = false := by
  cases hs : sanify c with
  | error e => simp [sanifiedExpansion, hs] at hg
  | ok hos =>
      by_cases hu : is_sign_union (get_hint_or_sane_hint hos) = true
      · simp only [sanifiedExpansion, hs, hu, if_true] at hg
        exact hdeep hos hs g hg
      · simp only [sanifiedExpansion, hs, hu, if_false,
          Bool.false_eq_true, List.mem_singleton] at hg
        subst hg
        simpa using hu

theorem flatten_union_child_validate (sanify : Sanifier)
    (inst pepOk : Nat → Nat → Bool) (c : Hint) (xs : List HintOrSane)
    (h : flatten_union_child sanify c = .ok xs)
    (hsem : ∀ hos, sanify c = .ok hos →
      ∀ v, Hint.validate inst pepOk (get_hint_or_sane_hint hos) v =
        Hint.validate inst pepOk c v)
    (v : Nat) :
    (xs.map get_hint_or_sane_hint).any
        (fun g => Hint.validate inst pepOk g v) =
      Hint.validate inst pepOk c v := by
  rw [flatten_union_child_map_hint sanify c xs h]
  cases hs : sanify c with
  | error e => simp [flatten_union_child, hs] at h
  | ok hos =>
      by_cases hu : is_sign_union (get_hint_or_sane_hint hos) = true
      · simp only [sanifiedExpansion, hs, hu, if_true]
        rw [← Hint.validate_of_union inst pepOk _ hu]
        exact hsem hos hs v
      · simp only [sanifiedExpansion, hs, hu, if_false,
          Bool.false_eq_true, List.any_cons, List.any_nil, Bool.or_false]
        exact hsem hos hs v

theorem flattenLoop_validate (sanify : Sanifier)
    (inst pepOk : Nat → Nat → Bool) (cs : List Hint)
    (out : List HintOrSane) (h : flattenLoop sanify cs = .ok out)
    (hsem : ∀ c ∈ cs, ∀ hos, sanify c = .ok hos →
      ∀ v, Hint.validate inst pepOk (get_hint_or_sane_hint hos) v =
        Hint.validate inst pepOk c v)
    (v : Nat) :
    (out.map get_hint_or_sane_hint).any
        (fun g => Hint.validate inst pepOk g v) =
      cs.any (fun c => Hint.validate inst pepOk c v) := by
  induction cs generalizing out with
  | nil => cases h; rfl
  | cons c rest ih =>
      unfold flattenLoop at h
      cases hc : flatten_union_child sanify c with
      | error e => rw [hc] at h; cases h
      | ok xs =>
          rw [hc] at h
          cases hr : flattenLoop sanify rest with
          | error e => rw [hr] at h; cases h
          | ok ys =>
              rw [hr] at h
              cases h
              rw [List.map_append, List.any_append, List.any_cons]
              rw [ih ys hr (fun c2 hc2 => hsem c2 (List.mem_cons_of_mem c hc2))]
              rw [flatten_union_child_validate sanify inst pepOk c xs hc
                (hsem c (List.mem_cons_self c rest)) v]

theorem get_union_args_flattened_core_loop (sanify : Sanifier)
    (hint : Hint) (out : List HintOrSane)
    (hok : get_union_args_flattened_core sanify hint = .ok out) :
    flattenLoop sanify (get_hint_pep_args hint) = .ok out := by
  unfold get_union_args_flattened_core at hok
  by_cases hemp : (get_hint_pep_args hint).isEmpty
  · simp [hemp] at hok
  · simp only [hemp, Bool.false_eq_true, if_false] at hok
    cases hflat : flattenLoop sanify (get_hint_pep_args hint) with
    | error e => rw [hflat] at hok; cases hok
    | ok childs => rw [hflat] at hok; cases hok; rfl

/-- C1 (amended): the flattening getter expands all child hints of each
sanified nested child union directly into the returned tuple in
discovery order, one level only: no sanified child union itself remains
at depth 1, so when no nested child union itself contains a union child
the returned tuple contains no union at depth 1 (a union nested two
levels deep is promoted to depth 1 and may remain there — flattening is
not recursive); and whenever sanification preserves acceptance, the
union of the flattened children accepts exactly the same values as the
original union. -/
theorem union_flatten_one_level (sanify : Sanifier)
    (inst pepOk : Nat → Nat → Bool) (hint : Hint)
    (out : List HintOrSane)
    (hu : is_sign_union hint = true)
    (hok : get_union_args_flattened_core sanify hint = .ok out) :
    out.map get_hint_or_sane_hint =
      (get_hint_pep_args hint).flatMap (sanifiedExpansion sanify) ∧
    ((∀ c ∈ get_hint_pep_args hint, ∀ hos, sanify c = .ok hos →
        ∀ g ∈ get_hint_pep_args (get_hint_or_sane_hint hos),
          is_sign_union g = false) →
      ∀ x ∈ out, is_sign_union (get_hint_or_sane_hint x) = false) ∧
    ((∀ c ∈ get_hint_pep_args hint, ∀ hos, sanify c = .ok hos →
        ∀ v, Hint.validate inst pepOk (get_hint_or_sane_hint hos) v =
          Hint.validate inst pepOk c v) →
      ∀ v, Hint.validate inst pepOk
          (Hint.mkUnion (out.map get_hint_or_sane_hint)) v =
        Hint.validate inst pepOk hint v) := by
  have hloop := get_union_args_flattened_core_loop sanify hint out hok
  refine ⟨flattenLoop_map_hint sanify _ out hloop, ?_, ?_⟩
  · intro hdeep x hx
    have hmem : get_hint_or_sane_hint x ∈
        (get_hint_pep_args hint).flatMap (sanifiedExpansion sanify) := by
      rw [← flattenLoop_map_hint sanify _ out hloop]
      exact List.mem_map_of_mem get_hint_or_sane_hint hx
    rcases List.mem_flatMap.mp hmem with ⟨c, hc, hg⟩
    exact sanifiedExpansion_no_union sanify c _ (hdeep c hc) hg
  · intro hsem v
    rw [Hint.validate_mkUnion,
      flattenLoop_validate sanify inst pepOk _ out hloop hsem v,
      ← Hint.validate_of_union inst pepOk hint hu]

/-- C1 counterexample: flattening a union whose nested child union
itself contains a union child leaves a union node at depth 1 of the
returned tuple, refuting the claim that no union node remains at depth
1 after one flattening pass. -/
theorem union_flatten_depth1_union_remains :
    get_union_args_flattened_core sanify_id
        (Hint.mkUnion [.nonpep 0,
          Hint.mkUnion [.nonpep 1,
            Hint.mkUnion [.nonpep 2, .nonpep 3]]]) =
      .ok [.inl (.nonpep 0), .inl (.nonpep 1),
           .inl (Hint.mkUnion [.nonpep 2, .nonpep 3])] ∧
    is_sign_union (get_hint_or_sane_hint
        (Sum.inl (Hint.mkUnion [.nonpep 2, .nonpep 3]))) = true :=
  ⟨rfl, rfl⟩

/-- C1 witness: the amended theorem applied to the identity sanifier
and a concrete union with one nested union child. -/
theorem union_flatten_one_level_witness :
    is_sign_union (get_hint_or_sane_hint
        (Sum.inl (Hint.nonpep 2) : HintOrSane)) = false ∧
    Hint.validate inst_eq pep_never
        (Hint.mkUnion [.nonpep 0, .nonpep 1, .nonpep 2]) 2 =
      Hint.validate inst_eq pep_never
        (Hint.mkUnion [.nonpep 0,
          Hint.mkUnion [.nonpep 1, .nonpep 2]]) 2 := by
  have h := union_flatten_one_level sanify_id inst_eq pep_never
    (Hint.mkUnion [.nonpep 0, Hint.mkUnion [.nonpep 1, .nonpep 2]])
    [.inl (.nonpep 0), .inl (.nonpep 1), .inl (.nonpep 2)] rfl rfl
  have hdeep : ∀ c ∈ get_hint_pep_args
      (Hint.mkUnion [.nonpep 0, Hint.mkUnion [.nonpep 1, .nonpep 2]]),
      ∀ hos, sanify_id c = .ok hos →
        ∀ g ∈ get_hint_pep_args (get_hint_or_sane_hint hos),
          is_sign_union g = false := by
    intro c hc hos hhos
    simp only [sanify_id, Except.ok.injEq] at hhos
    subst hhos
    simp only [Hint.mkUnion, get_hint_pep_args, List.mem_cons,
      List.mem_singleton, List.not_mem_nil, or_false] at hc
    rcases hc with rfl | rfl
    · decide
    · decide
  have hsem : ∀ c ∈ get_hint_pep_args
      (Hint.mkUnion [.nonpep 0, Hint.mkUnion [.nonpep 1, .nonpep 2]]),
      ∀ hos, sanify_id c = .ok hos →
        ∀ v, Hint.validate inst_eq pep_never
            (get_hint_or_sane_hint hos) v =
          Hint.validate inst_eq pep_never c v := by
    intro c hc hos hhos v
    simp only [sanify_id, Except.ok.injEq] at hhos
    subst hhos
    rfl
  refine ⟨?_, ?_⟩
  · exact h.2.1 hdeep (Sum.inl (Hint.nonpep 2))
      (List.mem_cons_of_mem _ (List.mem_cons_of_mem _
        (List.mem_cons_self _ _)))
  · exact (h.2.2 hsem 2).symm

/-- C2 (code bug): the flattening pass is memoized on the whole mutable
`HintsMeta` object, not on the (hint, configuration) pair, and its body
prints a debug line to stdout on every computation.  Consequences shown
at concrete inputs: a second invocation through the same metadata
object after its current hint has moved to a different union returns
the stale flattened children of the first union; and a second
invocation with the same hint and configuration through a different
metadata object recomputes and prints again. -/
theorem cached_flatten_keyed_on_meta_object :
    cached_union_args_flattened sanify_id
        { objId := 7, hint := Hint.mkUnion [.nonpep 0, .nonpep 1],
          conf := 0 }
        flattenCacheState0 =
      (.ok [.inl (.nonpep 0), .inl (.nonpep 1)],
        { cache := [(7, [.inl (.nonpep 0), .inl (.nonpep 1)])],
          printedCount := 1 }) ∧
    (cached_union_args_flattened sanify_id
        { objId := 7, hint := Hint.mkUnion [.nonpep 2, .nonpep 3],
          conf := 0 }
        { cache := [(7, [.inl (.nonpep 0), .inl (.nonpep 1)])],
          printedCount := 1 }).1 =
      .ok [.inl (.nonpep 0), .inl (.nonpep 1)] ∧
    get_union_args_flattened_core sanify_id
        (Hint.mkUnion [.nonpep 2, .nonpep 3]) =
      .ok [.inl (.nonpep 2), .inl (.nonpep 3)] ∧
    (cached_union_args_flattened sanify_id
        { objId := 8, hint := Hint.mkUnion [.nonpep 0, .nonpep 1],
          conf := 0 }
        { cache := [(7, [.inl (.nonpep 0), .inl (.nonpep 1)])],
          printedCount := 1 }).2.printedCount = 2 :=
  ⟨rfl, rfl, rfl, rfl⟩

theorem confCacheLookup_append_self (c : List (ConfArgs × Nat))
    (a : ConfArgs) (i : Nat) (h : confCacheLookup c a = none) :
    confCacheLookup (c ++ [(a, i)]) a = some i := by
  induction c with
  | nil => simp [confCacheLookup]
  | cons p rest ih =>
      obtain ⟨k, v⟩ := p
      by_cases hk : k = a
      · simp [confCacheLookup, hk] at h
      · simp [confCacheLookup, hk] at h ⊢
        exact ih h

theorem conf_fields_of_conf_args (env : Option String) (a : ConfArgs)
    (f : ConfFields) (h : conf_fields_of env a = .ok f) :
    f.conf_args = a := by
  cases hv : conf_validate env a with
  | error e => simp [conf_fields_of, hv] at h
  | ok t =>
      obtain ⟨claw, color, dbg, tower, is_warning_set, warning_cls,
        strat⟩ := t
      simp only [conf_fields_of, hv] at h
      cases h
      rfl

/-- C4: configuration construction is deduplicated by value equality.
`BeartypeConf.__eq__` compares the `_conf_args` field, and `_conf_args`
is one of the slotted fields of a constructed configuration, so two
calls whose resulting configurations have identical field values (in
particular value-equal ones) return the very same object, and the
second call leaves the shared state untouched.  Construction of a new
instance happens only inside the critical section modelled by the body
of `BeartypeConf_new` (the whole body runs under
`beartype_conf_lock`). -/
theorem conf_new_deduplicates (env : Option String) (a b : ConfArgs)
    (st st1 st2 : ConfState) (id1 id2 : Nat) (f1 f2 : ConfFields)
    (h1 : BeartypeConf_new env a st = (.ok id1, st1))
    (h2 : BeartypeConf_new env b st1 = (.ok id2, st2))
    (hf1 : conf_fields_of env a = .ok f1)
    (hf2 : conf_fields_of env b = .ok f2)
    (heq : conf_eq f1 f2 = true) :
    id2 = id1 ∧ st2 = st1 := by
  have hab : a = b := by
    have e1 := conf_fields_of_conf_args env a f1 hf1
    have e2 := conf_fields_of_conf_args env b f2 hf2
    have e3 : f1.conf_args = f2.conf_args := by
      simpa [conf_eq] using heq
    rw [← e1, e3, e2]
  subst hab
  cases hl : confCacheLookup st.cache a with
  | some cid =>
      simp only [BeartypeConf_new, hl, Prod.mk.injEq,
        Except.ok.injEq] at h1
      obtain ⟨rfl, rfl⟩ := h1
      simp only [BeartypeConf_new, hl, Prod.mk.injEq,
        Except.ok.injEq] at h2
      obtain ⟨rfl, rfl⟩ := h2
      exact ⟨rfl, rfl⟩
  | none =>
      simp only [BeartypeConf_new, hl, hf1, Prod.mk.injEq,
        Except.ok.injEq] at h1
      obtain ⟨rfl, rfl⟩ := h1
      have hl2 : confCacheLookup (st.cache ++ [(a, st.nextId)]) a =
          some st.nextId :=
        confCacheLookup_append_self st.cache a st.nextId hl
      simp only [BeartypeConf_new, hl2, Prod.mk.injEq,
        Except.ok.injEq] at h2
      obtain ⟨rfl, rfl⟩ := h2
      exact ⟨rfl, rfl⟩

/-- C4 witness: constructing the default configuration twice from the
initial state returns the same object identity and leaves the state of
the second call identical to that of the first. -/
theorem conf_new_deduplicates_witness :
    BeartypeConf_new none confArgsW confState0 = (.ok 0, confStateW) ∧
    BeartypeConf_new none confArgsW confStateW = (.ok 0, confStateW) ∧
    (0 = 0 ∧ confStateW = confStateW) :=
  ⟨rfl, rfl,
    conf_new_deduplicates none confArgsW confArgsW confState0 confStateW
      confStateW 0 0 confFieldsW confFieldsW rfl rfl rfl rfl rfl⟩

/-- C9: `BeartypeConf.__new__` is atomic on error: whenever it raises
(a configuration exception for a type-invalid parameter or a shell
variable exception for an unrecognized `${BEARTYPE_IS_COLOR}` value),
the configuration cache and all shared state are left unchanged, and a
later call with the same parameters re-validates and raises the same
exception again instead of returning a cached instance. -/
theorem conf_new_error_leaves_cache_unchanged (env : Option String)
    (a : ConfArgs) (st : ConfState) (e : ConfError) (st1 : ConfState)
    (h : BeartypeConf_new env a st = (.error e, st1)) :
    st1 = st ∧ BeartypeConf_new env a st1 = (.error e, st1) := by
  cases hl : confCacheLookup st.cache a with
  | some cid => simp [BeartypeConf_new, hl] at h
  | none =>
      cases hf : conf_fields_of env a with
      | ok f => simp [BeartypeConf_new, hl, hf] at h
      | error e2 =>
          simp only [BeartypeConf_new, hl, hf, Prod.mk.injEq,
            Except.error.injEq] at h
          obtain ⟨rfl, rfl⟩ := h
          refine ⟨rfl, ?_⟩
          simp [BeartypeConf_new, hl, hf]

/-- C9 witness: with the shell variable set to the unrecognized value
`yes`, constructing the default configuration raises the shell variable
exception and leaves the initial state unchanged; calling again raises
identically. -/
theorem conf_new_error_leaves_cache_unchanged_witness :
    BeartypeConf_new (some "yes") confArgsW confState0 =
      (.error (.shellVarException "yes"), confState0) ∧
    (confState0 = confState0 ∧
      BeartypeConf_new (some "yes") confArgsW confState0 =
        (.error (.shellVarException "yes"), confState0)) :=
  ⟨rfl,
    conf_new_error_leaves_cache_unchanged (some "yes") confArgsW
      confState0 (.shellVarException "yes") confState0 rfl⟩

theorem ident_chars_no_dot (l : List Char)
    (h : l.all (fun d => d.isAlphanum || d = '_') = true) :
    '.' ∉ l := by
  intro hmem
  exact absurd (List.all_eq_true.mp h _ hmem) (by decide)

theorem str_isidentifier_no_dot (s : String)
    (h : str_isidentifier s = true) : '.' ∉ s.data := by
  unfold str_isidentifier at h
  cases hl : s.data with
  | nil => simp [hl]
  | cons c rest =>
      rw [hl] at h
      simp only [Bool.and_eq_true] at h
      intro hmem
      rcases List.mem_cons.mp hmem with rfl | hmem2
      · exact absurd h.1 (by decide)
      · exact ident_chars_no_dot rest h.2 hmem2

theorem str_isidentifier_ne_empty (s : String)
    (h : str_isidentifier s = true) : ¬ s = "" := by
  intro he
  subst he
  cases h

/-- C10 counterexample: subscripting `IsAttr` by a 2-tuple whose second
item is not a validator raises `AttributeError` (from the access to its
missing code locals), not `BeartypeValeSubscriptionException`. -/
theorem isattr_nonvalidator_not_subscription_exception :
    isattr_class_getitem (.tuple [.str "a", .other 0]) =
      .error .attributeError ∧
    ValeError.is_subscription ValeError.attributeError = false :=
  ⟨rfl, rfl⟩

/-- C10 (amended): for a 2-tuple of a non-empty unqualified identifier
string and a validator, subscription succeeds and the produced
`is_valid` is total on missing attributes: it returns true iff the
attribute lookup does not yield the sentinel and the attribute
validator accepts the value (an object lacking the attribute yields
false, never an error).  Only such 2-tuples succeed; a 2-tuple whose
first item is a valid name but whose second item is not a validator
raises `AttributeError`, and this is the only input shape raising
`AttributeError` — every other invalid subscription raises
`BeartypeValeSubscriptionException`. -/
theorem isattr_is_valid_total_and_errors (attr_name : String)
    (av : AttrValidator) (hid : str_isidentifier attr_name = true) :
    (isattr_class_getitem (.tuple [.str attr_name, .validator av]) =
      .ok { is_valid := isattr_is_valid attr_name av,
            is_valid_code_locals :=
              ("sentinel", 0) :: av.code_locals } ∧
     ∀ pith, isattr_is_valid attr_name av pith = true ↔
       ∃ a, getattr_or_sentinel pith attr_name = some a ∧
         av.is_valid a = true) ∧
    (∀ args r, isattr_class_getitem args = .ok r →
      ∃ name v, args = .tuple [.str name, .validator v] ∧
        str_isidentifier name = true) ∧
    (∀ x, (∀ v, x ≠ ValeArg.validator v) →
      isattr_class_getitem (.tuple [.str attr_name, x]) =
        .error .attributeError) ∧
    (∀ args, isattr_class_getitem args = .error .attributeError →
      ∃ name x, args = .tuple [.str name, x] ∧
        str_isidentifier name = true ∧
        ∀ v, x ≠ ValeArg.validator v) := by
  have hne := str_isidentifier_ne_empty attr_name hid
  have hdot := str_isidentifier_no_dot attr_name hid
  refine ⟨⟨?_, ?_⟩, ?_, ?_, ?_⟩
  · simp [isattr_class_getitem, hne, hdot, hid]
  · intro pith
    unfold isattr_is_valid
    cases hg : getattr_or_sentinel pith attr_name with
    | none => simp [hg]
    | some a => simp [hg]
  · intro args r h
    cases args with
    | nonTuple x => cases h
    | tuple items =>
        rcases items with _ | ⟨a1, _ | ⟨a2, _ | ⟨a3, rest⟩⟩⟩
        · cases h
        · cases h
        · cases a1 with
          | str s =>
              by_cases hs0 : s = ""
              · simp [isattr_class_getitem, hs0] at h
              · by_cases hsdot : '.' ∈ s.data
                · simp [isattr_class_getitem, hs0, hsdot] at h
                · by_cases hsid : str_isidentifier s = true
                  · cases a2 with
                    | validator v => exact ⟨s, v, rfl, hsid⟩
                    | str s2 =>
                        simp [isattr_class_getitem, hs0, hsdot, hsid]
                          at h
                    | other n =>
                        simp [isattr_class_getitem, hs0, hsdot, hsid]
                          at h
                  · simp [isattr_class_getitem, hs0, hsdot, hsid] at h
          | validator v => cases h
          | other n => cases h
        · cases h
  · intro x hx
    cases x with
    | validator v => exact absurd rfl (hx v)
    | str s2 => simp [isattr_class_getitem, hne, hdot, hid]
    | other n => simp [isattr_class_getitem, hne, hdot, hid]
  · intro args h
    cases args with
    | nonTuple x => cases h
    | tuple items =>
        rcases items with _ | ⟨a1, _ | ⟨a2, _ | ⟨a3, rest⟩⟩⟩
        · cases h
        · cases h
        · cases a1 with
          | str s =>
              by_cases hs0 : s = ""
              · simp [isattr_class_getitem, hs0] at h
              · by_cases hsdot : '.' ∈ s.data
                · simp [isattr_class_getitem, hs0, hsdot] at h
                · by_cases hsid : str_isidentifier s = true
                  · cases a2 with
                    | validator v =>
                        simp [isattr_class_getitem, hs0, hsdot, hsid]
                          at h
                    | str s2 =>
                        exact ⟨s, .str s2, rfl, hsid,
                          fun v hv => by cases hv⟩
                    | other n =>
                        exact ⟨s, .other n, rfl, hsid,
                          fun v hv => by cases hv⟩
                  · simp [isattr_class_getitem, hs0, hsdot, hsid] at h
          | validator v => cases h
          | other n => cases h
        · cases h

/-- C10 witness: the amended theorem applied to the attribute name
`ndim` and a validator accepting exactly the value 2. -/
theorem isattr_is_valid_total_and_errors_witness :
    str_isidentifier "ndim" = true ∧
    isattr_is_valid "ndim"
      { is_valid := fun a => a == 2, code_locals := [] }
      { attrs := [("ndim", 2)] } = true ∧
    isattr_is_valid "ndim"
      { is_valid := fun a => a == 2, code_locals := [] }
      { attrs := [("shape", 9)] } = false := by
  have h := isattr_is_valid_total_and_errors "ndim"
    { is_valid := fun a => a == 2, code_locals := [] } (by decide)
  refine ⟨by decide, ?_, ?_⟩
  · exact (h.1.2 { attrs := [("ndim", 2)] }).mpr ⟨2, rfl, rfl⟩
  · cases hb : isattr_is_valid "ndim"
      { is_valid := fun a => a == 2, code_locals := [] }
      { attrs := [("shape", 9)] } with
    | false => rfl
    | true =>
        obtain ⟨a, ha, -⟩ :=
          (h.1.2 { attrs := [("shape", 9)] }).mp hb
        cases ha

end Beartype
